import Mathlib

/-!
Shallow embedding of `src/contur_likelihood.py` (the spey backend
`ConturLikelihood`) together with theorems settling the frozen claims
about its specification.

Conventions of the embedding:

* numpy float arrays become `List ℝ`; a general `np.ndarray` (only its
  `ndim`, `shape` and `diagonal()` are consumed by the source) becomes the
  `NpArray` structure below, holding the shape and the row-major data.
* Python exceptions become `Except PyError _` / `Option _` results.
* The spey / scipy / autograd primitives (Poisson and Normal
  log-densities, sampling, `MainModel`, `ConstraintModel`, `ModelConfig`)
  are external to this repository; they are modelled from the spec where
  the claims need them, each such definition carries a doc comment saying
  so.
* Randomness used by the samplers is passed in explicitly as an oracle
  `ω : ℕ → ℕ → ℝ` giving the i-th row's j-th external draw; the shape
  properties under scrutiny hold for every oracle.
-/

namespace ConturSpec

/-- Model of a numpy `ndarray` as consumed by the source: its `shape`
and its row-major `flat` data.  Only `ndim` (= `shape.length`),
`shape[0]`, `shape[1]` and (for 2-D arrays) `diagonal()` are ever used by
`src/contur_likelihood.py`. -/
structure NpArray where
  shape : List ℕ
  flat : List ℝ

/-- `ndarray.ndim` is the number of axes. -/
def NpArray.ndim (a : NpArray) : ℕ := a.shape.length

/-- `ndarray.diagonal()` of a 2-D array of shape `(r, c)`: the entries
`flat[i * c + i]` for `i < min r c`. -/
def npDiagonal (a : NpArray) : List ℝ :=
  (List.range (min (a.shape.getD 0 0) (a.shape.getD 1 0))).map
    (fun i => a.flat.getD (i * a.shape.getD 1 0 + i) 0)

/-- `np.min` of a 1-D array: `none` models the `ValueError` numpy raises
on an empty array, otherwise the least element via a fold. -/
noncomputable def npMin : List ℝ → Option ℝ
  | [] => none
  | x :: xs => some (xs.foldl min x)

/-- `np.array_split(l, 3)`: three consecutive chunks; with `L = l.length`,
`q = L / 3` and `r = L % 3`, the first `r` chunks have length `q + 1` and
the rest length `q` (so for `L = 3 * N` the chunks all have length `N`). -/
def arraySplit3 (l : List ℝ) : List ℝ × List ℝ × List ℝ :=
  let q := l.length / 3
  let r := l.length % 3
  let s1 := if 1 ≤ r then q + 1 else q
  let s2 := if 2 ≤ r then q + 1 else q
  (l.take s1, (l.drop s1).take s2, (l.drop s1).drop s2)

/-- The Python exceptions that the embedded code can raise.

`nameErrorInvalidInput` models the `NameError` Python raises at
`raise InvalidInput(...)`: the name `InvalidInput` is neither defined in
the module nor imported, so evaluating it fails before any exception of
that class could be constructed.  `invalidInput` is the exception class
the source *intended* to raise (the spec's `InvalidInputError`); it is
unreachable in the code as written. -/
inductive PyError where
  | nameErrorInvalidInput
  | invalidInput
  | valueErrorEmptyMin

/-- The state stored by a successfully constructed `ConturLikelihood`
(the assignments at the end of the validation block of `__init__`). -/
structure Model where
  signal_yields : List ℝ
  background_yields : List ℝ
  data : List ℝ
  signal_covariance : NpArray
  background_covariance : NpArray
  data_covariance : NpArray

/-- `ConturLikelihood.__init__`: the validation checks, in source order.

* `len(set(len(y) for y in (signal, background, data))) != 1` — the
  three lengths do not all coincide;
* for each of `(data_covariance, signal_covariance, background_covariance)`:
  `cov.ndim != 2`, then `cov.shape[0] != cov.shape[1]`;
* `len(data) != data_covariance.shape[0]`.

Each failing check executes `raise InvalidInput(...)`, which raises a
`NameError` because `InvalidInput` is bound nowhere (see `PyError`). -/
def initModel (signal_yields background_yields data : List ℝ)
    (signal_covariance background_covariance data_covariance : NpArray) :
    Except PyError Model :=
  if ¬ (signal_yields.length = background_yields.length ∧
        background_yields.length = data.length) then
    .error .nameErrorInvalidInput
  else if data_covariance.ndim ≠ 2 then .error .nameErrorInvalidInput
  else if data_covariance.shape.getD 0 0 ≠ data_covariance.shape.getD 1 0 then
    .error .nameErrorInvalidInput
  else if signal_covariance.ndim ≠ 2 then .error .nameErrorInvalidInput
  else if signal_covariance.shape.getD 0 0 ≠ signal_covariance.shape.getD 1 0 then
    .error .nameErrorInvalidInput
  else if background_covariance.ndim ≠ 2 then .error .nameErrorInvalidInput
  else if background_covariance.shape.getD 0 0 ≠ background_covariance.shape.getD 1 0 then
    .error .nameErrorInvalidInput
  else if data.length ≠ data_covariance.shape.getD 0 0 then
    .error .nameErrorInvalidInput
  else
    .ok ⟨signal_yields, background_yields, data,
         signal_covariance, background_covariance, data_covariance⟩

/-- `self.nbins = len(self.data)`. -/
def nbins (m : Model) : ℕ := m.data.length

/-- The closure `lam` defined in `__init__`:
`pars[0] * signal + background`, plus each of the three nuisance blocks
of `np.array_split(pars[1:], 3)` multiplied elementwise by the square
root of the corresponding covariance diagonal.  (`pars[0]` on an empty
list would raise in Python; every theorem below supplies a nonempty
`pars`, so the `getD` default is never reached.) -/
noncomputable def lam (m : Model) (pars : List ℝ) : List ℝ :=
  let poisson_counts :=
    List.zipWith (fun s b => pars.getD 0 0 * s + b) m.signal_yields m.background_yields
  let split := arraySplit3 (pars.drop 1)
  let signal_uncertainties := (npDiagonal m.signal_covariance).map Real.sqrt
  let background_uncertainties := (npDiagonal m.background_covariance).map Real.sqrt
  let data_uncertainties := (npDiagonal m.data_covariance).map Real.sqrt
  List.zipWith (· + ·)
    (List.zipWith (· + ·)
      (List.zipWith (· + ·) poisson_counts
        (List.zipWith (· * ·) split.1 signal_uncertainties))
      (List.zipWith (· * ·) split.2.1 background_uncertainties))
    (List.zipWith (· * ·) split.2.2 data_uncertainties)

/-- The free name `absolute_uncertainties` used by the closure
`constraint` in `__init__`.  It is bound nowhere in the Python module —
not a local of `constraint` or of `__init__`, not an attribute access,
not a module global, not an import — so evaluating it raises `NameError`.
We model the failed name lookup as `none`. -/
def absolute_uncertainties : Option (List ℝ) := none

/-- The closure `constraint` defined in `__init__`:
`background_yields * (1 + pars[1:] * np.array(absolute_uncertainties))`.
Since `absolute_uncertainties` is an unbound name, every call raises
`NameError`; the body under `map` is the computation the source would
perform were the name bound to a list. -/
def constraint (m : Model) (pars : List ℝ) : Option (List ℝ) :=
  absolute_uncertainties.map fun u =>
    List.zipWith (· * ·) m.background_yields
      (List.zipWith (fun p uu => 1 + p * uu) (pars.drop 1) u)

/-- Modelled from the spec: spey's `ModelConfig` record (external to this
repository) — POI index, POI lower bound, suggested initial parameter
values, and per-parameter `(low, high)` bounds where `None` marks an
unbounded side. -/
structure ModelConfig where
  poi_index : ℕ
  minimum_poi : ℝ
  suggested_init : List ℝ
  suggested_bounds : List (Option ℝ × Option ℝ)

/-- The masked ratio array
`background_yields[signal_yields > 0] / signal_yields[signal_yields > 0]`
computed by `config` (numpy applies the boolean mask to both arrays and
divides elementwise; the two arrays have equal length in a constructed
model). -/
noncomputable def maskedRatios (bg sig : List ℝ) : List ℝ :=
  ((bg.zip sig).filter fun p => decide (0 < p.2)).map fun p => p.1 / p.2

/-- `ConturLikelihood.config`: computes
`min_poi = -np.min(background[signal > 0] / signal[signal > 0])` and
returns `ModelConfig(0, min_poi, [1.0] * (len(data) + 1),
[(min_poi if allow_negative_signal else 0.0, poi_upper_bound)] +
[(None, None)] * len(data))`.  `none` models the `ValueError` that
`np.min` raises when no signal yield is positive. -/
noncomputable def config (m : Model) (allow_negative_signal : Bool)
    (poi_upper_bound : ℝ) : Option ModelConfig :=
  match npMin (maskedRatios m.background_yields m.signal_yields) with
  | none => none
  | some r =>
      some ⟨0, -r,
            List.replicate (m.data.length + 1) 1,
            (some (if allow_negative_signal then -r else 0), some poi_upper_bound)
              :: List.replicate m.data.length (none, none)⟩

/-- spey's expectation-type flag. -/
inductive ExpectationType where
  | observed
  | aposteriori
  | apriori

/-- Modelled from the spec: the Poisson log-probability mass
`n·log λ − λ − log Γ(n+1)` (a statistics-library primitive, outside this
repository). -/
noncomputable def poissonLogPmf (mean n : ℝ) : ℝ :=
  n * Real.log mean - mean - Real.log (Real.Gamma (n + 1))

/-- Modelled from the spec: the Normal log-density with mean `μ` and
standard deviation `σ` (a statistics-library primitive, outside this
repository). -/
noncomputable def normalLogPdf (mean std x : ℝ) : ℝ :=
  -((x - mean) ^ 2 / (2 * std ^ 2)) - Real.log (std * Real.sqrt (2 * Real.pi))

/-- Modelled from the spec: spey's `MainModel.log_prob(pars, observations)`
— the sum of per-bin Poisson log-probabilities of the observations at
mean `lam(pars)`. -/
noncomputable def mainModelLogProb (m : Model) (pars observations : List ℝ) : ℝ :=
  (List.zipWith (fun lami ni => poissonLogPmf lami ni) (lam m pars) observations).sum

/-- Modelled from the spec: spey's `MainModel.expected_data(pars)` — the
Poisson mean `lam(pars)` itself. -/
noncomputable def mainModelExpectedData (m : Model) (pars : List ℝ) : List ℝ :=
  lam m pars

/-- Modelled from the spec: spey's `MainModel.sample(pars, n)` — `n`
independent vectors of Poisson counts with mean `lam(pars)`; the draws
themselves are external randomness, supplied here by the oracle `ω`. -/
noncomputable def mainModelSample (m : Model) (pars : List ℝ) (n : ℕ)
    (ω : ℕ → ℕ → ℝ) : List (List ℝ) :=
  (List.range n).map fun i => (List.range (lam m pars).length).map fun j => ω i j

/-- The single normal-distribution descriptor handed to spey's
`ConstraintModel` (external) — its mean vector, standard-deviation
vector, and the start of the `slice(1, None)` domain it reads from the
fit parameters. -/
structure ConstraintDistSpec where
  means : List ℝ
  stds : List ℝ
  domainStart : ℕ

/-- The descriptor built in `__init__`, lines 119–130 of the source:
`{"distribution_type": "normal", "args": [np.zeros(len(self.data)),
np.ones(len(self.data))], "kwargs": {"domain": slice(1, None)}}`.
Note the dimension is `len(self.data) = N`, not `3 * N`. -/
def conturConstraintSpec (m : Model) : ConstraintDistSpec :=
  ⟨List.replicate m.data.length 0, List.replicate m.data.length 1, 1⟩

/-- Modelled from the spec: spey's `ConstraintModel.log_prob(pars)` — the
sum of the normal log-densities of the domain slice of `pars` under the
distribution's means and standard deviations.  (With the source's
descriptor the slice has `3N` entries against an `N`-dimensional
distribution; numpy broadcasting would reject that mismatch for `N > 1`,
and no claim below depends on the value of this sum.) -/
noncomputable def constraintModelLogProb (c : ConstraintDistSpec) (pars : List ℝ) : ℝ :=
  (List.zipWith (fun x p => normalLogPdf p.1 p.2 x)
    (pars.drop c.domainStart) (c.means.zip c.stds)).sum

/-- Modelled from the spec: spey's `ConstraintModel.sample(pars, n)` —
`n` independent normal vectors of the distribution's dimension, each
entry `mean + std · draw` with the draws supplied by the oracle `ω`. -/
def constraintModelSample (c : ConstraintDistSpec) (n : ℕ)
    (ω : ℕ → ℕ → ℝ) : List (List ℝ) :=
  (List.range n).map fun i =>
    (List.range c.means.length).map fun j =>
      c.means.getD j 0 + c.stds.getD j 0 * ω i j

/-- Modelled from the spec: spey's `ConstraintModel.expected_data()` —
the prior mean vector of the constraint distribution. -/
def constraintModelExpectedData (c : ConstraintDistSpec) : List ℝ :=
  c.means

/-- The dataset-selection lines shared verbatim by
`get_objective_function` and `get_logpdf_func`:
`current_data = background_yields if expected == apriori else self.data;
data = current_data if data is None else data`. -/
def currentData (m : Model) (expected : ExpectationType) : List ℝ :=
  match expected with
  | .apriori => m.background_yields
  | _ => m.data

/-- The second selection line: an explicitly supplied dataset wins over
`currentData`. -/
def chosenData (m : Model) (expected : ExpectationType)
    (dataArg : Option (List ℝ)) : List ℝ :=
  match dataArg with
  | none => currentData m expected
  | some d => d

/-- `ConturLikelihood.get_logpdf_func`: returns
`pars ↦ main_model.log_prob(pars, data[:len(self.data)])
        + constraint_model.log_prob(pars)`. -/
noncomputable def get_logpdf_func (m : Model) (expected : ExpectationType)
    (dataArg : Option (List ℝ)) : List ℝ → ℝ :=
  fun pars =>
    mainModelLogProb m pars ((chosenData m expected dataArg).take m.data.length)
      + constraintModelLogProb (conturConstraintSpec m) pars

/-- The closure `negative_loglikelihood` of `get_objective_function`:
`pars ↦ -main_model.log_prob(pars, data[:len(self.data)])
        - constraint_model.log_prob(pars)`. -/
noncomputable def negative_loglikelihood (m : Model) (dataset : List ℝ) :
    List ℝ → ℝ :=
  fun pars =>
    -mainModelLogProb m pars (dataset.take m.data.length)
      - constraintModelLogProb (conturConstraintSpec m) pars

/-- The value component of the callable returned by
`ConturLikelihood.get_objective_function`: with `do_grad=False` the
callable is `negative_loglikelihood` itself; with `do_grad=True` it is
`pars ↦ (negative_loglikelihood(pars), autograd-gradient)`, whose value
part is the same function (the gradient is produced by the external
autograd engine and is not modelled). -/
noncomputable def get_objective_value (m : Model) (expected : ExpectationType)
    (dataArg : Option (List ℝ)) : List ℝ → ℝ :=
  negative_loglikelihood m (chosenData m expected dataArg)

/-- The closure `sampler` returned by `ConturLikelihood.get_sampler`:
draws from the main model and, when `include_auxiliary` is set,
`np.hstack`s an equal number of constraint-model rows onto it
(row-wise concatenation). -/
noncomputable def sampler (m : Model) (pars : List ℝ) (sample_size : ℕ)
    (include_auxiliary : Bool) (ω₁ ω₂ : ℕ → ℕ → ℝ) : List (List ℝ) :=
  let sample := mainModelSample m pars sample_size ω₁
  if include_auxiliary then
    List.zipWith (· ++ ·) sample
      (constraintModelSample (conturConstraintSpec m) sample_size ω₂)
  else sample

/-- `ConturLikelihood.expected_data`: the main model's expected data,
with the constraint model's expected data `np.hstack`ed on when
`include_auxiliary` is set. -/
noncomputable def expected_data (m : Model) (pars : List ℝ)
    (include_auxiliary : Bool) : List ℝ :=
  let d := mainModelExpectedData m pars
  if include_auxiliary then d ++ constraintModelExpectedData (conturConstraintSpec m)
  else d

/-- A 1×1 covariance matrix `[[1.0]]`. -/
def cov1 : NpArray := ⟨[1, 1], [1]⟩

/-- A concrete one-bin model: `signal = [2]`, `background = [3]`,
`data = [5]`, all covariances `[[1.0]]`. -/
def model1 : Model := ⟨[2], [3], [5], cov1, cov1, cov1⟩

/-- The 2×2 identity covariance matrix. -/
def cov2 : NpArray := ⟨[2, 2], [1, 0, 0, 1]⟩

/-- The spec §8 concrete scenario: `signal = [5, 10]`,
`background = [20, 30]`, `data = [25, 40]`, identity covariances. -/
def model2 : Model := ⟨[5, 10], [20, 30], [25, 40], cov2, cov2, cov2⟩

/-! ## Helper lemmas -/

theorem getD_eq_getElem_of_lt (l : List ℝ) (i : ℕ) (h : i < l.length) :
    l.getD i 0 = l[i] := by
  rw [List.getD_eq_getElem?_getD, List.getElem?_eq_getElem h, Option.getD_some]

theorem foldl_min_le (xs : List ℝ) (x : ℝ) :
    xs.foldl min x ≤ x ∧ ∀ y ∈ xs, xs.foldl min x ≤ y := by
  induction xs generalizing x with
  | nil => exact ⟨le_refl x, by simp⟩
  | cons z zs ih =>
    have h := ih (min x z)
    refine ⟨le_trans h.1 (min_le_left _ _), ?_⟩
    intro y hy
    rcases List.mem_cons.mp hy with rfl | hy
    · exact le_trans h.1 (min_le_right _ _)
    · exact h.2 y hy

theorem foldl_min_mem (xs : List ℝ) (x : ℝ) :
    xs.foldl min x = x ∨ xs.foldl min x ∈ xs := by
  induction xs generalizing x with
  | nil => exact Or.inl rfl
  | cons z zs ih =>
    have h : (z :: zs).foldl min x = zs.foldl min (min x z) := rfl
    rcases ih (min x z) with h1 | h1
    · rcases min_choice x z with h2 | h2
      · exact Or.inl (by rw [h, h1, h2])
      · exact Or.inr (by rw [h, h1, h2]; exact List.mem_cons_self z zs)
    · exact Or.inr (by rw [h]; exact List.mem_cons_of_mem z h1)

theorem getD_zipWith_of_lt (f : ℝ → ℝ → ℝ) (l1 l2 : List ℝ) (i : ℕ)
    (h1 : i < l1.length) (h2 : i < l2.length) :
    (List.zipWith f l1 l2).getD i 0 = f (l1.getD i 0) (l2.getD i 0) := by
  have h : i < (List.zipWith f l1 l2).length := by
    rw [List.length_zipWith]; exact lt_min h1 h2
  rw [getD_eq_getElem_of_lt _ _ h, getD_eq_getElem_of_lt _ _ h1,
    getD_eq_getElem_of_lt _ _ h2, List.getElem_zipWith]

theorem getD_map_of_lt (f : ℝ → ℝ) (l : List ℝ) (i : ℕ) (h : i < l.length) :
    (l.map f).getD i 0 = f (l.getD i 0) := by
  have h2 : i < (l.map f).length := by rwa [List.length_map]
  rw [getD_eq_getElem_of_lt _ _ h2, getD_eq_getElem_of_lt _ _ h, List.getElem_map]

theorem mem_maskedRatios (bg sig : List ℝ) (hlen : bg.length = sig.length)
    (x : ℝ) :
    x ∈ maskedRatios bg sig ↔
      ∃ i, i < sig.length ∧ 0 < sig.getD i 0 ∧
        x = bg.getD i 0 / sig.getD i 0 := by
  have hz : (bg.zip sig).length = sig.length := by
    rw [List.length_zip, hlen, min_self]
  constructor
  · intro hx
    obtain ⟨p, hp, hpx⟩ := List.mem_map.mp hx
    obtain ⟨hpz, hpd⟩ := List.mem_filter.mp hp
    obtain ⟨i, hi, hpi⟩ := List.mem_iff_getElem.mp hpz
    have hi2 : i < sig.length := hz ▸ hi
    have hi1 : i < bg.length := hlen ▸ hi2
    have hget : p = (bg[i], sig[i]) := by
      rw [← hpi, List.getElem_zip]
    refine ⟨i, hi2, ?_, ?_⟩
    · have : decide (0 < p.2) = true := hpd
      rw [hget] at this
      rw [getD_eq_getElem_of_lt _ _ hi2]
      exact of_decide_eq_true this
    · rw [← hpx, hget, getD_eq_getElem_of_lt _ _ hi1, getD_eq_getElem_of_lt _ _ hi2]
  · rintro ⟨i, hi, hpos, rfl⟩
    have hi1 : i < bg.length := hlen ▸ hi
    refine List.mem_map.mpr ⟨(bg.getD i 0, sig.getD i 0), ?_, rfl⟩
    refine List.mem_filter.mpr ⟨?_, ?_⟩
    · refine List.mem_iff_getElem.mpr ⟨i, hz ▸ hi, ?_⟩
      rw [List.getElem_zip, getD_eq_getElem_of_lt _ _ hi1, getD_eq_getElem_of_lt _ _ hi]
    · exact decide_eq_true hpos

theorem arraySplit3_append (θs θb θd : List ℝ) (N : ℕ)
    (h1 : θs.length = N) (h2 : θb.length = N) (h3 : θd.length = N) :
    arraySplit3 (θs ++ θb ++ θd) = (θs, θb, θd) := by
  have hlen : (θs ++ θb ++ θd).length = 3 * N := by
    simp [List.length_append, h1, h2, h3]; ring
  have hq : 3 * N / 3 = N := by omega
  have hr : ¬ 1 ≤ 3 * N % 3 := by omega
  have hr2 : ¬ 2 ≤ 3 * N % 3 := by omega
  have htake : (θs ++ θb ++ θd).take N = θs := by
    rw [List.append_assoc]
    exact List.take_left' h1
  have hdrop : (θs ++ θb ++ θd).drop N = θb ++ θd := by
    rw [List.append_assoc]
    exact List.drop_left' h1
  simp only [arraySplit3, hlen, hq, hr, hr2, if_false, iff_false, if_neg,
    not_false_eq_true, htake, hdrop, List.take_left' h2, List.drop_left' h2]

theorem getD_replicate_of_lt (n i : ℕ) (x : ℝ) (h : i < n) :
    (List.replicate n x).getD i 0 = x := by
  have h2 : i < (List.replicate n x).length := by rwa [List.length_replicate]
  rw [getD_eq_getElem_of_lt _ _ h2, List.getElem_replicate]

/-! ## Claim theorems -/

/-- C2: the code bug behind the sampler-shape claim.  On the one-bin
model `model1` the sampler called with `include_auxiliary = true` returns
rows of length `2 = N + N`, not `N + 3N = 4`: the constraint model was
constructed with `np.zeros(len(data))`, an `N`-dimensional prior instead
of the `3N`-dimensional one the class docstring and the spec describe.
With `include_auxiliary = false` the rows correctly have length `N`. -/
theorem sampler_row_width_bug :
    ((sampler model1 [1, 0, 0, 0] 2 true (fun _ _ => 0) (fun _ _ => 0)).map
        List.length = [2, 2])
    ∧ ((sampler model1 [1, 0, 0, 0] 2 false (fun _ _ => 0) (fun _ _ => 0)).map
        List.length = [1, 1])
    ∧ nbins model1 + 3 * nbins model1 = 4
    ∧ (2 : ℕ) ≠ 4 := by
  refine ⟨rfl, rfl, rfl, by decide⟩

/-- C3: the code bug behind the expected-data claim.  On `model1`,
`expected_data` with `include_auxiliary = true` returns a vector of
length `2 = N + N`, not `N + 3N = 4`: the auxiliary block appended is the
constraint model's mean vector `np.zeros(len(data))` of length `N`, not
the `3N`-dimensional zero vector the spec describes.  Without auxiliary
data it correctly returns the length-`N` mean vector `lam(pars)`. -/
theorem expected_data_width_bug :
    (expected_data model1 [1, 0, 0, 0] true).length = 2
    ∧ (expected_data model1 [1, 0, 0, 0] false).length = 1
    ∧ expected_data model1 [1, 0, 0, 0] false = lam model1 [1, 0, 0, 0]
    ∧ (expected_data model1 [1, 0, 0, 0] true).take 1 = lam model1 [1, 0, 0, 0]
    ∧ nbins model1 + 3 * nbins model1 = 4
    ∧ (2 : ℕ) ≠ 4 := by
  refine ⟨rfl, rfl, rfl, ?_, rfl, by decide⟩
  show (lam model1 [1, 0, 0, 0] ++ [(0 : ℝ)]).take 1 = lam model1 [1, 0, 0, 0]
  rfl

/-- C4: the code bug behind the constraint-function claim.  Every
evaluation of the closure `constraint` fails (raises `NameError` in
Python), because the name `absolute_uncertainties` it multiplies by is
bound nowhere in the module; the constraint therefore never evaluates to
`background_yields * (1 + pars_background_block * relative_uncertainties)`. -/
theorem constraint_evaluation_fails :
    (∀ (m : Model) (pars : List ℝ), constraint m pars = none)
    ∧ constraint model1 [1, 0, 0, 0] = none := ⟨fun _ _ => rfl, rfl⟩

/-- C5: the code bug behind the validation claim.  With mismatched yield
lengths (`signal = [1]`, `background = [1, 2]`, `data = [1]`) the
constructor does fail, but with a `NameError` — the statement
`raise InvalidInput(...)` references a name that is never defined or
imported — rather than with the `InvalidInputError` the spec names.  On
valid input (the data of `model1`) construction succeeds. -/
theorem init_raises_nameError :
    initModel [1] [1, 2] [1] cov1 cov1 cov1
      = Except.error PyError.nameErrorInvalidInput
    ∧ initModel [1] [1, 2] [1] cov1 cov1 cov1
        ≠ Except.error PyError.invalidInput
    ∧ initModel [2] [3] [5] cov1 cov1 cov1 = Except.ok model1 := by
  refine ⟨rfl, ?_, rfl⟩
  have h : initModel [1] [1, 2] [1] cov1 cov1 cov1
      = Except.error PyError.nameErrorInvalidInput := rfl
  rw [h]
  intro hcontra
  exact absurd (Except.error.inj hcontra) (by intro h2; cases h2)

/-- C8: for every model, expectation mode, optional dataset and
parameter vector, the function returned by `get_logpdf_func` is the sum
of the main model's and the constraint model's log-probabilities on the
selected dataset, and the value returned by `get_objective_function` is
exactly its negation — no factor of two is applied. -/
theorem logpdf_objective_decomposition :
    ∀ (m : Model) (expected : ExpectationType) (dataArg : Option (List ℝ))
      (pars : List ℝ),
      get_logpdf_func m expected dataArg pars
        = mainModelLogProb m pars
            ((chosenData m expected dataArg).take m.data.length)
          + constraintModelLogProb (conturConstraintSpec m) pars
      ∧ get_objective_value m expected dataArg pars
          = -(get_logpdf_func m expected dataArg pars) := by
  intro m e d pars
  refine ⟨rfl, ?_⟩
  show -mainModelLogProb m pars _ - constraintModelLogProb _ pars
      = -(mainModelLogProb m pars _ + constraintModelLogProb _ pars)
  ring

/-- C9: dataset selection by expectation mode.  With no explicit data
argument, both `get_logpdf_func` and `get_objective_function` condition
on the stored observed data in the `observed` and `aposteriori` modes and
substitute the background yields in the `apriori` mode; an explicit data
argument is used instead in every mode. -/
theorem dataset_selection_by_mode :
    ∀ (m : Model) (d : List ℝ),
      chosenData m ExpectationType.observed none = m.data
      ∧ chosenData m ExpectationType.aposteriori none = m.data
      ∧ chosenData m ExpectationType.apriori none = m.background_yields
      ∧ (∀ e : ExpectationType, chosenData m e (some d) = d)
      ∧ (∀ e : ExpectationType,
          get_logpdf_func m e none = get_logpdf_func m e (some (currentData m e)))
      ∧ (∀ e : ExpectationType,
          get_objective_value m e none
            = get_objective_value m e (some (currentData m e))) := by
  intro m d
  exact ⟨rfl, rfl, rfl, fun e => rfl, fun e => rfl, fun e => rfl⟩

/-- C10: only the first `N` entries of a supplied dataset influence the
likelihood.  Any two data vectors of length at least `N` that agree on
their first `N` entries give identical `get_logpdf_func` and
`get_objective_function` results — longer vectors are silently truncated,
not rejected. -/
theorem logpdf_truncates_supplied_data (m : Model) (e : ExpectationType)
    (d₁ d₂ : List ℝ)
    (h₁ : m.data.length ≤ d₁.length) (h₂ : m.data.length ≤ d₂.length)
    (h : d₁.take m.data.length = d₂.take m.data.length) :
    get_logpdf_func m e (some d₁) = get_logpdf_func m e (some d₂)
    ∧ get_objective_value m e (some d₁) = get_objective_value m e (some d₂) := by
  constructor
  · funext pars
    show mainModelLogProb m pars (d₁.take m.data.length) + _
        = mainModelLogProb m pars (d₂.take m.data.length) + _
    rw [h]
  · funext pars
    show -mainModelLogProb m pars (d₁.take m.data.length) - _
        = -mainModelLogProb m pars (d₂.take m.data.length) - _
    rw [h]

/-- C10 witness: the model `model1` (one bin) with the datasets
`[3, 99]` and `[3, -5, 7]`, which agree on their first entry. -/
theorem logpdf_truncates_supplied_data_witness :
    (model1.data.length ≤ 2 ∧ model1.data.length ≤ 3
      ∧ ([(3 : ℝ), 99].take model1.data.length
          = [(3 : ℝ), -5, 7].take model1.data.length))
    ∧ (get_logpdf_func model1 ExpectationType.observed (some [3, 99])
        = get_logpdf_func model1 ExpectationType.observed (some [3, -5, 7])
      ∧ get_objective_value model1 ExpectationType.observed (some [3, 99])
        = get_objective_value model1 ExpectationType.observed (some [3, -5, 7])) :=
  ⟨⟨by decide, by decide, rfl⟩,
   logpdf_truncates_supplied_data model1 ExpectationType.observed
     [3, 99] [3, -5, 7] (by decide) (by decide) rfl⟩

/-- C1: the code bug behind the configuration claim.  On the two-bin
model `model2` (so `3N + 1 = 7` parameters per the model's own parameter
layout), `config` returns only `len(data) + 1 = 3` initial values and
`1 + len(data) = 3` bound pairs — one POI bound plus `N` unbounded
entries — instead of the `3N + 1 = 7` initial values and `3N = 6`
unbounded nuisance bounds the claim states. -/
theorem config_suggested_lengths_bug :
    (config model2 true 10).map
        (fun cfg => (cfg.suggested_init.length, cfg.suggested_bounds.length))
      = some (3, 3)
    ∧ nbins model2 = 2
    ∧ (3 : ℕ) ≠ 3 * 2 + 1 := by
  have e1 : decide (0 < (5 : ℝ)) = true := decide_eq_true (by norm_num)
  have e2 : decide (0 < (10 : ℝ)) = true := decide_eq_true (by norm_num)
  have hm : maskedRatios model2.background_yields model2.signal_yields
      = [20 / 5, 30 / 10] := by
    show maskedRatios [20, 30] [5, 10] = _
    simp only [maskedRatios, List.zip, List.zipWith, List.filter, e1, e2,
      List.map]
  have hmin : npMin (maskedRatios model2.background_yields model2.signal_yields)
      = some 3 := by
    rw [hm]
    show some (List.foldl min (20 / 5 : ℝ) [30 / 10]) = some 3
    norm_num [min_def]
  have hc : config model2 true 10
      = some ⟨0, -3, List.replicate 3 1,
              (some (-3), some 10) :: List.replicate 2 (none, none)⟩ := by
    unfold config
    rw [hmin]
    rfl
  refine ⟨by rw [hc]; rfl, rfl, by decide⟩

/-- C6: the mean-response function.  For a model whose yield vectors and
covariance diagonals all have length `N` and a parameter vector
`μ :: (θˢ ++ θᵇ ++ θᵈ)` with equal blocks of length `N`, `lam` has length
`N` and per bin equals
`μ·sᵢ + bᵢ + θˢᵢ·√(Σˢᵢᵢ) + θᵇᵢ·√(Σᵇᵢᵢ) + θᵈᵢ·√(Σᵈᵢᵢ)`; in particular with
all `3N` nuisance parameters zero the main model's expected data is
exactly `μ·signal + background` elementwise. -/
theorem lam_linear_expansion (m : Model) (N : ℕ)
    (hs : m.signal_yields.length = N) (hb : m.background_yields.length = N)
    (hsd : (npDiagonal m.signal_covariance).length = N)
    (hbd : (npDiagonal m.background_covariance).length = N)
    (hdd : (npDiagonal m.data_covariance).length = N) :
    (∀ (μ : ℝ) (θs θb θd : List ℝ),
      θs.length = N → θb.length = N → θd.length = N →
      (lam m (μ :: (θs ++ θb ++ θd))).length = N
      ∧ ∀ i, i < N →
          (lam m (μ :: (θs ++ θb ++ θd))).getD i 0
            = μ * m.signal_yields.getD i 0 + m.background_yields.getD i 0
              + θs.getD i 0 * Real.sqrt ((npDiagonal m.signal_covariance).getD i 0)
              + θb.getD i 0 * Real.sqrt ((npDiagonal m.background_covariance).getD i 0)
              + θd.getD i 0 * Real.sqrt ((npDiagonal m.data_covariance).getD i 0))
    ∧ ∀ μ : ℝ,
        mainModelExpectedData m (μ :: List.replicate (3 * N) 0)
          = List.zipWith (fun s b => μ * s + b)
              m.signal_yields m.background_yields := by
  have hpart1 : ∀ (μ : ℝ) (θs θb θd : List ℝ),
      θs.length = N → θb.length = N → θd.length = N →
      (lam m (μ :: (θs ++ θb ++ θd))).length = N
      ∧ ∀ i, i < N →
          (lam m (μ :: (θs ++ θb ++ θd))).getD i 0
            = μ * m.signal_yields.getD i 0 + m.background_yields.getD i 0
              + θs.getD i 0 * Real.sqrt ((npDiagonal m.signal_covariance).getD i 0)
              + θb.getD i 0 * Real.sqrt ((npDiagonal m.background_covariance).getD i 0)
              + θd.getD i 0 * Real.sqrt ((npDiagonal m.data_covariance).getD i 0) := by
    intro μ θs θb θd hθs hθb hθd
    have hsplit := arraySplit3_append θs θb θd N hθs hθb hθd
    have hlam : lam m (μ :: (θs ++ θb ++ θd))
        = List.zipWith (· + ·)
            (List.zipWith (· + ·)
              (List.zipWith (· + ·)
                (List.zipWith (fun s b => μ * s + b)
                  m.signal_yields m.background_yields)
                (List.zipWith (· * ·) θs
                  ((npDiagonal m.signal_covariance).map Real.sqrt)))
              (List.zipWith (· * ·) θb
                ((npDiagonal m.background_covariance).map Real.sqrt)))
            (List.zipWith (· * ·) θd
              ((npDiagonal m.data_covariance).map Real.sqrt)) := by
      simp only [lam, List.getD_cons_zero, List.drop_succ_cons, List.drop_zero,
        hsplit]
    have hsu : ((npDiagonal m.signal_covariance).map Real.sqrt).length = N := by
      rw [List.length_map, hsd]
    have hbu : ((npDiagonal m.background_covariance).map Real.sqrt).length = N := by
      rw [List.length_map, hbd]
    have hdu : ((npDiagonal m.data_covariance).map Real.sqrt).length = N := by
      rw [List.length_map, hdd]
    have hp : (List.zipWith (fun s b => μ * s + b)
        m.signal_yields m.background_yields).length = N := by
      rw [List.length_zipWith, hs, hb, min_self]
    have hx1 : (List.zipWith (· * ·) θs
        ((npDiagonal m.signal_covariance).map Real.sqrt)).length = N := by
      rw [List.length_zipWith, hθs, hsu, min_self]
    have hx2 : (List.zipWith (· * ·) θb
        ((npDiagonal m.background_covariance).map Real.sqrt)).length = N := by
      rw [List.length_zipWith, hθb, hbu, min_self]
    have hx3 : (List.zipWith (· * ·) θd
        ((npDiagonal m.data_covariance).map Real.sqrt)).length = N := by
      rw [List.length_zipWith, hθd, hdu, min_self]
    have hl1 : (List.zipWith (· + ·)
        (List.zipWith (fun s b => μ * s + b) m.signal_yields m.background_yields)
        (List.zipWith (· * ·) θs
          ((npDiagonal m.signal_covariance).map Real.sqrt))).length = N := by
      rw [List.length_zipWith, hp, hx1, min_self]
    have hl2 : (List.zipWith (· + ·)
        (List.zipWith (· + ·)
          (List.zipWith (fun s b => μ * s + b) m.signal_yields m.background_yields)
          (List.zipWith (· * ·) θs
            ((npDiagonal m.signal_covariance).map Real.sqrt)))
        (List.zipWith (· * ·) θb
          ((npDiagonal m.background_covariance).map Real.sqrt))).length = N := by
      rw [List.length_zipWith, hl1, hx2, min_self]
    refine ⟨by rw [hlam, List.length_zipWith, hl2, hx3, min_self], ?_⟩
    intro i hi
    rw [hlam,
      getD_zipWith_of_lt _ _ _ i (hl2 ▸ hi) (hx3 ▸ hi),
      getD_zipWith_of_lt _ _ _ i (hl1 ▸ hi) (hx2 ▸ hi),
      getD_zipWith_of_lt _ _ _ i (hp ▸ hi) (hx1 ▸ hi),
      getD_zipWith_of_lt _ _ _ i (hs ▸ hi) (hb ▸ hi),
      getD_zipWith_of_lt _ _ _ i (hθs ▸ hi) (hsu ▸ hi),
      getD_zipWith_of_lt _ _ _ i (hθb ▸ hi) (hbu ▸ hi),
      getD_zipWith_of_lt _ _ _ i (hθd ▸ hi) (hdu ▸ hi),
      getD_map_of_lt _ _ i (hsd ▸ hi),
      getD_map_of_lt _ _ i (hbd ▸ hi),
      getD_map_of_lt _ _ i (hdd ▸ hi)]
  refine ⟨hpart1, ?_⟩
  intro μ
  have h3N : 3 * N = N + N + N := by ring
  have hrep : (List.replicate (3 * N) (0 : ℝ))
      = List.replicate N 0 ++ List.replicate N 0 ++ List.replicate N 0 := by
    rw [h3N, List.replicate_add, List.replicate_add]
  obtain ⟨hlen, hform⟩ := hpart1 μ (List.replicate N 0) (List.replicate N 0)
    (List.replicate N 0) (List.length_replicate _ _) (List.length_replicate _ _)
    (List.length_replicate _ _)
  show lam m (μ :: List.replicate (3 * N) 0) = _
  rw [hrep]
  have hrhs : (List.zipWith (fun s b => μ * s + b)
      m.signal_yields m.background_yields).length = N := by
    rw [List.length_zipWith, hs, hb, min_self]
  apply List.ext_getElem (by rw [hlen, hrhs])
  intro i h1 h2
  have hiN : i < N := by rw [hlen] at h1; exact h1
  rw [← getD_eq_getElem_of_lt _ _ h1, ← getD_eq_getElem_of_lt _ _ h2,
    hform i hiN,
    getD_zipWith_of_lt _ _ _ i (hs ▸ hiN) (hb ▸ hiN),
    getD_replicate_of_lt _ _ _ hiN]
  ring

/-- C6 witness: the theorem instantiated at the two-bin model `model2`
with identity covariances. -/
theorem lam_linear_expansion_witness :
    (model2.signal_yields.length = 2 ∧ model2.background_yields.length = 2
      ∧ (npDiagonal model2.signal_covariance).length = 2
      ∧ (npDiagonal model2.background_covariance).length = 2
      ∧ (npDiagonal model2.data_covariance).length = 2)
    ∧ ((∀ (μ : ℝ) (θs θb θd : List ℝ),
        θs.length = 2 → θb.length = 2 → θd.length = 2 →
        (lam model2 (μ :: (θs ++ θb ++ θd))).length = 2
        ∧ ∀ i, i < 2 →
            (lam model2 (μ :: (θs ++ θb ++ θd))).getD i 0
              = μ * model2.signal_yields.getD i 0
                + model2.background_yields.getD i 0
                + θs.getD i 0
                  * Real.sqrt ((npDiagonal model2.signal_covariance).getD i 0)
                + θb.getD i 0
                  * Real.sqrt ((npDiagonal model2.background_covariance).getD i 0)
                + θd.getD i 0
                  * Real.sqrt ((npDiagonal model2.data_covariance).getD i 0))
      ∧ ∀ μ : ℝ,
          mainModelExpectedData model2 (μ :: List.replicate (3 * 2) 0)
            = List.zipWith (fun s b => μ * s + b)
                model2.signal_yields model2.background_yields) :=
  ⟨⟨rfl, rfl, rfl, rfl, rfl⟩,
   lam_linear_expansion model2 2 rfl rfl rfl rfl rfl⟩

/-- C7: for every model whose yield vectors have a common length and in
which some signal yield is strictly positive, `config` succeeds and the
POI lower bound it reports is `-min(background[i] / signal[i])` over
exactly the bins with `signal[i] > 0`: it is attained at such a bin and
bounds `-(background[i] / signal[i])` from above at every such bin. -/
theorem config_poi_lower_bound (m : Model)
    (hlen : m.background_yields.length = m.signal_yields.length)
    (halive : ∃ i, i < m.signal_yields.length ∧ 0 < m.signal_yields.getD i 0) :
    ∀ (a : Bool) (u : ℝ), ∃ cfg, config m a u = some cfg ∧
      (∃ i, i < m.signal_yields.length ∧ 0 < m.signal_yields.getD i 0 ∧
        cfg.minimum_poi
          = -(m.background_yields.getD i 0 / m.signal_yields.getD i 0)) ∧
      (∀ i, i < m.signal_yields.length → 0 < m.signal_yields.getD i 0 →
        -(m.background_yields.getD i 0 / m.signal_yields.getD i 0)
          ≤ cfg.minimum_poi) := by
  obtain ⟨i0, hi0, hpos0⟩ := halive
  have hmm : (m.background_yields.getD i0 0 / m.signal_yields.getD i0 0)
      ∈ maskedRatios m.background_yields m.signal_yields :=
    (mem_maskedRatios _ _ hlen _).2 ⟨i0, hi0, hpos0, rfl⟩
  obtain ⟨x, xs, hcase⟩ : ∃ x xs,
      maskedRatios m.background_yields m.signal_yields = x :: xs := by
    cases h : maskedRatios m.background_yields m.signal_yields with
    | nil => rw [h] at hmm; exact absurd hmm (List.not_mem_nil _)
    | cons a as => exact ⟨a, as, rfl⟩
  have hnp : npMin (maskedRatios m.background_yields m.signal_yields)
      = some (xs.foldl min x) := by rw [hcase]; rfl
  intro a u
  refine ⟨⟨0, -(xs.foldl min x), List.replicate (m.data.length + 1) 1,
      (some (if a then -(xs.foldl min x) else 0), some u)
        :: List.replicate m.data.length (none, none)⟩, ?_, ?_, ?_⟩
  · unfold config
    rw [hnp]
  · have hrmem : xs.foldl min x
        ∈ maskedRatios m.background_yields m.signal_yields := by
      rw [hcase]
      rcases foldl_min_mem xs x with h | h
      · rw [h]; exact List.mem_cons_self x xs
      · exact List.mem_cons_of_mem x h
    obtain ⟨i, hi, hp, heq⟩ := (mem_maskedRatios _ _ hlen _).1 hrmem
    exact ⟨i, hi, hp, by rw [← heq]⟩
  · intro i hi hp
    have hmemi : (m.background_yields.getD i 0 / m.signal_yields.getD i 0)
        ∈ maskedRatios m.background_yields m.signal_yields :=
      (mem_maskedRatios _ _ hlen _).2 ⟨i, hi, hp, rfl⟩
    rw [hcase] at hmemi
    have hle : xs.foldl min x
        ≤ m.background_yields.getD i 0 / m.signal_yields.getD i 0 := by
      rcases List.mem_cons.mp hmemi with h | h
      · rw [← h] at *; exact (foldl_min_le xs _).1
      · exact (foldl_min_le xs x).2 _ h
    exact neg_le_neg hle

/-- C7 witness: the theorem instantiated at `model2`, where both signal
yields are positive, so the reported lower bound is
`-min(20/5, 30/10) = -3`. -/
theorem config_poi_lower_bound_witness :
    (model2.background_yields.length = model2.signal_yields.length
      ∧ ∃ i, i < model2.signal_yields.length
          ∧ 0 < model2.signal_yields.getD i 0)
    ∧ (∀ (a : Bool) (u : ℝ), ∃ cfg, config model2 a u = some cfg ∧
        (∃ i, i < model2.signal_yields.length
            ∧ 0 < model2.signal_yields.getD i 0
            ∧ cfg.minimum_poi
              = -(model2.background_yields.getD i 0
                  / model2.signal_yields.getD i 0)) ∧
        (∀ i, i < model2.signal_yields.length →
          0 < model2.signal_yields.getD i 0 →
          -(model2.background_yields.getD i 0 / model2.signal_yields.getD i 0)
            ≤ cfg.minimum_poi)) :=
  ⟨⟨rfl, ⟨0, by decide, by show (0 : ℝ) < 5; norm_num⟩⟩,
   config_poi_lower_bound model2 rfl
     ⟨0, by decide, by show (0 : ℝ) < 5; norm_num⟩⟩

end ConturSpec
